import Mathlib

/-!
Verification of the statistical backend of the VoxCeleb speaker-verification
recipe (`recipes/VoxCeleb/SpeakerRec/speaker_verification_plda.py`).

The embedding models:
* the stat-object construction loops (`emb_computation_loop` for the enrol and
  test splits, and the inline training-embedding loop of `__main__`) as pure
  functions over lists of batches, with the on-disk pickle cache made explicit
  as an `Option` value threaded in and out;
* the `Ndx` preparation step of `__main__`, again with its cache explicit;
* `compute_EER`, which parses the ground-truth trial file line by line,
  normalizes the file references, looks each trial up in the score matrix and
  partitions the scores into positive and negative sets.

Machine floats are modelled as `Rat`; Python exceptions are modelled as the
`EerErr` error values of an `Except` result, one constructor per raise site.
Python string primitives (`str.split`, `str.rstrip`, `str.strip`, `int`) are
given structurally recursive translations over `List Char` so that every
definition evaluates inside the kernel. The library routine
`speechbrain.utils.metric_stats.EER` is not part of this repository slice, so
it is modelled from the spec (see `EER_fn`).
-/

/-- Decidable equality for `Except` results, so concrete runs of the embedded
functions can be checked with `decide`. -/
instance instDecEqExcept {ε α : Type} [DecidableEq ε] [DecidableEq α] :
    DecidableEq (Except ε α) := fun x y =>
  match x, y with
  | .ok a, .ok b =>
    if h : a = b then isTrue (by rw [h]) else isFalse (by simp [h])
  | .error e, .error f =>
    if h : e = f then isTrue (by rw [h]) else isFalse (by simp [h])
  | .ok _, .error _ => isFalse (by simp)
  | .error _, .ok _ => isFalse (by simp)

/-- Python `s.split(sep)` for a one-character separator, over the character
list of the string: splits at every occurrence of the separator and keeps
empty fields, so `"a  b"` splits into `["a", "", "b"]` and `""` into `[""]`. -/
def pySplit (p : Char → Bool) : List Char → List (List Char)
  | [] => [[]]
  | c :: rest =>
    if p c then [] :: pySplit p rest
    else
      match pySplit p rest with
      | [] => [[c]]
      | t :: ts => (c :: t) :: ts

/-- Python `s.rstrip()`: drop trailing whitespace characters. -/
def pyRstrip (cs : List Char) : List Char :=
  (cs.reverse.dropWhile Char.isWhitespace).reverse

/-- Python `s.strip()`: drop leading and trailing whitespace characters. -/
def pyStrip (cs : List Char) : List Char :=
  (pyRstrip cs).dropWhile Char.isWhitespace

/-- Digit-list accumulator for `pyInt`: fails on the first non-digit. -/
def pyNat : List Char → Option Nat
  | [] => none
  | cs => cs.foldl
      (fun acc? c =>
        acc?.bind fun acc =>
          if c.isDigit then some (acc * 10 + (c.toNat - '0'.toNat)) else none)
      (some 0)

/-- Python `int(s)` on an already-stripped string: an optional sign followed by
at least one decimal digit; anything else raises ValueError, modelled as
`none`. -/
def pyInt : List Char → Option Int
  | '-' :: rest => (pyNat rest).map (fun n => -(n : Int))
  | '+' :: rest => (pyNat rest).map (fun n => (n : Int))
  | cs => (pyNat cs).map (fun n => (n : Int))

/-- Scores container produced by `fast_PLDA_scoring`: the model-id row labels,
segment-id column labels, and the dense score matrix read by `compute_EER`
(`scores_plda.modelset`, `scores_plda.segset`, `scores_plda.scoremat`). -/
structure Scores where
  modelset : List String
  segset : List String
  scoremat : List (List Rat)
deriving DecidableEq, Repr

/-- Error values standing for the Python exceptions `compute_EER` can raise,
one constructor per raise site: a missing token (`line.split(" ")[k]` raising
IndexError), a label that does not parse as an integer (`int(...)` raising
ValueError), a failed id lookup (`numpy.where(...)[0][0]` raising IndexError —
the spec calls this condition TrialNotFoundError), an out-of-range score-matrix
access, and the empty positive/negative set condition of the EER routine (the
spec's InsufficientTrialsError). -/
inductive EerErr where
  | malformedLine : EerErr
  | badLabel : EerErr
  | trialNotFound : EerErr
  | badMatrix : EerErr
  | insufficientTrials : EerErr
deriving DecidableEq, Repr

/-- Normalization applied by `compute_EER` to each space-separated token of a
trial line: `tok.rstrip().split(".")[0].strip()` — trim trailing whitespace,
keep the part before the first dot, trim both ends (source lines 105–107).
Note that it does not touch path separators. -/
def normId (tok : List Char) : String :=
  String.mk (pyStrip ((pySplit (· = '.') (pyRstrip tok)).headD []))

/-- First index of `x` in `l`, i.e. `int(numpy.where(arr == x)[0][0])` with a
lookup miss surfaced as `none` instead of an IndexError. -/
def firstIdx (l : List String) (x : String) : Option Nat :=
  match l with
  | [] => none
  | a :: t => if a = x then some 0 else (firstIdx t x).map (· + 1)

/-- One iteration of the trial loop of `compute_EER` (source lines 104–119):
parse the label from token 0, normalize tokens 1 and 2 into the enrolment and
test ids, look both up in the score matrix's id lists, and read the score.
Returns the parsed label together with the looked-up score. -/
def processLine (sm : Scores) (line : String) : Except EerErr (Int × Rat) :=
  let toks := pySplit (· = ' ') line.data
  match toks[0]? with
  | none => .error .malformedLine
  | some t0 =>
    match pyInt (normId t0).data with
    | none => .error .badLabel
    | some lab =>
      match toks[1]? with
      | none => .error .malformedLine
      | some t1 =>
        match toks[2]? with
        | none => .error .malformedLine
        | some t2 =>
          match firstIdx sm.modelset (normId t1) with
          | none => .error .trialNotFound
          | some i =>
            match firstIdx sm.segset (normId t2) with
            | none => .error .trialNotFound
            | some j =>
              match (sm.scoremat[i]?).bind (fun row => row[j]?) with
              | none => .error .badMatrix
              | some s => .ok (lab, s)

/-- The trial loop of `compute_EER`: process the ground-truth lines in order,
appending each found score to the positive list when the parsed label is `1`
and to the negative list otherwise; the first failing line aborts the whole
computation with its error. -/
def collectScores (sm : Scores) : List String → Except EerErr (List Rat × List Rat)
  | [] => .ok ([], [])
  | line :: rest =>
    match processLine sm line with
    | .error e => .error e
    | .ok (lab, s) =>
      match collectScores sm rest with
      | .error e => .error e
      | .ok (pos, neg) =>
        if lab = 1 then .ok (s :: pos, neg) else .ok (pos, s :: neg)

/-- False-rejection rate of the positive scores at threshold `t`: the fraction
of positive scores at or below `t`. -/
def FRRat (pos : List Rat) (t : Rat) : Rat :=
  (pos.countP (· ≤ t) : Nat) / (pos.length : Rat)

/-- False-acceptance rate of the negative scores at threshold `t`: the fraction
of negative scores strictly above `t`. -/
def FARat (neg : List Rat) (t : Rat) : Rat :=
  (neg.countP (t < ·) : Nat) / (neg.length : Rat)

/-- Absolute value on `Rat`, written out so that it evaluates inside the
kernel. -/
def absRat (x : Rat) : Rat :=
  if x < 0 then -x else x

/-- Modelled from the spec: `speechbrain.utils.metric_stats.EER` is imported
by the recipe but its code is not part of this repository slice. Per the spec,
it computes the EER "as the threshold where false-accept rate equals
false-reject rate, found by sorting combined scores and sweeping the threshold
(standard ROC sweep)", reports the pair `(eer, threshold)`, and "fails with
InsufficientTrialsError if either positive or negative set is empty". The
sweep picks the candidate threshold minimizing `|FAR - FRR|` and reports the
mid-point `(FAR + FRR) / 2` as the EER. -/
def EER_fn (pos neg : List Rat) : Except EerErr (Rat × Rat) :=
  if pos.isEmpty || neg.isEmpty then .error .insufficientTrials
  else
    match (List.insertionSort (· ≤ ·) (pos ++ neg)).argmin
        (fun t => absRat (FARat neg t - FRRat pos t)) with
    | none => .error .insufficientTrials
    | some t => .ok ((FARat neg t + FRRat pos t) / 2, t)

/-- Model of `compute_EER` (source lines 95–126): collect the positive and negative
score sets from the ground-truth trial lines, run the EER routine, and return
only the `eer` component to the caller (`eer, th = EER(...); return eer`). -/
def compute_EER (sm : Scores) (gtLines : List String) : Except EerErr Rat :=
  match collectScores sm gtLines with
  | .error e => .error e
  | .ok (pos, neg) =>
    match EER_fn pos neg with
    | .error e => .error e
    | .ok (eer, _th) => .ok eer

/-- The per-utterance sufficient-statistics container
`speechbrain.processing.PLDA_LDA.StatObject_SB`, restricted to the six fields
the recipe passes to its constructor: the model-id and segment-id lists, the
`start`/`stop` arrays (always filled with `None` here), the zeroth-order
statistics `stat0` and the first-order statistics (embeddings) `stat1`. -/
structure StatObject_SB where
  modelset : List String
  segset : List String
  start : List (Option Nat)
  stop : List (Option Nat)
  stat0 : List (List Rat)
  stat1 : List (List Rat)
deriving DecidableEq, Repr

/-- The accumulation loop of `emb_computation_loop` (source lines 52–64): for
each batch, append its utterance ids to both `modelset` and `segset`
(`mod = seg = ids`) and concatenate its embedding vectors onto the embedding
matrix. A batch is a list of `(id, embedding)` pairs. -/
def embAccum (batches : List (List (String × List Rat))) :
    List String × List String × List (List Rat) :=
  batches.foldl
    (fun acc batch =>
      (acc.1 ++ batch.map Prod.fst,
       acc.2.1 ++ batch.map Prod.fst,
       acc.2.2 ++ batch.map Prod.snd))
    ([], [], [])

/-- The stat object built by `emb_computation_loop` on a cache miss (source
lines 66–81): the accumulated id lists and embeddings, with `start` and `stop`
set to `[None] * n` and `stat0` to `[[1.0]] * n`. -/
def buildEmbStatObj (batches : List (List (String × List Rat))) : StatObject_SB :=
  match embAccum batches with
  | (ms, ss, embs) =>
    { modelset := ms
      segset := ss
      start := List.replicate embs.length none
      stop := List.replicate embs.length none
      stat0 := List.replicate embs.length [1]
      stat1 := embs }

/-- Model of `emb_computation_loop` (source lines 43–92) with the pickle cache made
explicit: when the stat file does not exist (`cache = none`) the stat object
is computed from the batches and saved; when it exists, the stored object is
unpickled and returned as-is, with no content validation. Returns the stat
object together with the cache state after the call. -/
def emb_computation_loop (batches : List (List (String × List Rat)))
    (cache : Option StatObject_SB) : StatObject_SB × Option StatObject_SB :=
  match cache with
  | none => (buildEmbStatObj batches, some (buildEmbStatObj batches))
  | some so => (so, some so)

/-- The accumulation loop of the training-embedding extraction in `__main__`
(source lines 211–229): for each batch, append the flattened speaker ids to
`modelset`, the utterance ids to `segset`, and concatenate the embeddings. A
batch is a list of `(spk_id, snt_id, embedding)` triples. -/
def trainAccum (batches : List (List (String × String × List Rat))) :
    List String × List String × List (List Rat) :=
  batches.foldl
    (fun acc batch =>
      (acc.1 ++ batch.map Prod.fst,
       acc.2.1 ++ batch.map (fun u => u.2.1),
       acc.2.2 ++ batch.map (fun u => u.2.2)))
    ([], [], [])

/-- The training stat object built by `__main__` on a cache miss (source lines
232–246): accumulated speaker ids, utterance ids and embeddings, with `start`
and `stop` set to `[None] * n` and `stat0` to `[[1.0]] * n`. -/
def buildTrainStatObj (batches : List (List (String × String × List Rat))) :
    StatObject_SB :=
  match trainAccum batches with
  | (ms, ss, embs) =>
    { modelset := ms
      segset := ss
      start := List.replicate embs.length none
      stop := List.replicate embs.length none
      stat0 := List.replicate embs.length [1]
      stat1 := embs }

/-- The cached training-embedding step of `__main__` (source lines 209–260):
compute and save the training stat object when `xv_file` does not exist, else
unpickle and use the stored object unvalidated. -/
def train_embedding_step (batches : List (List (String × String × List Rat)))
    (cache : Option StatObject_SB) : StatObject_SB × Option StatObject_SB :=
  match cache with
  | none => (buildTrainStatObj batches, some (buildTrainStatObj batches))
  | some so => (so, some so)

/-- The trial-index object `speechbrain.processing.PLDA_LDA.Ndx` as the recipe
uses it: the enrolment model ids and test segment ids handed to its
constructor (`Ndx(models=..., testsegs=...)`, source line 288). The class
itself is outside this repository slice; only the id lists the recipe passes
in are modelled. -/
structure Ndx where
  models : List String
  testsegs : List String
deriving DecidableEq, Repr

/-- The Ndx preparation step of `__main__` (source lines 283–295) with the
pickle cache made explicit: when `ndx_file` does not exist, build the Ndx from
the two id lists and save it; when it exists, unpickle and use the stored
object unvalidated. -/
def prepare_ndx (models testsegs : List String) (cache : Option Ndx) :
    Ndx × Option Ndx :=
  match cache with
  | none => (Ndx.mk models testsegs, some (Ndx.mk models testsegs))
  | some nd => (nd, some nd)

/-- Record lookup by utterance id on a stat object: the index of the first
`segset` entry equal to `id` selects the record; the result is the record's
model label and embedding vector. -/
def lookupVec (so : StatObject_SB) (id : String) : Option (String × List Rat) :=
  match firstIdx so.segset id with
  | none => none
  | some k =>
    match so.modelset[k]?, so.stat1[k]? with
    | some lab, some v => some (lab, v)
    | _, _ => none

theorem firstIdx_eq_none_iff (l : List String) (x : String) :
    firstIdx l x = none ↔ x ∉ l := by
  induction l with
  | nil => simp [firstIdx]
  | cons a t ih =>
    by_cases hax : a = x
    · simp [firstIdx, hax]
    · simp [firstIdx, hax, ih, Option.map_eq_none', Ne.symm hax]

theorem firstIdx_getElem (l : List String) (x : String) (i : Nat)
    (h : firstIdx l x = some i) : l[i]? = some x := by
  induction l generalizing i with
  | nil => simp [firstIdx] at h
  | cons a t ih =>
    simp only [firstIdx] at h
    by_cases hax : a = x
    · rw [if_pos hax] at h
      obtain rfl : 0 = i := Option.some.inj h
      simp [hax]
    · rw [if_neg hax] at h
      obtain ⟨i0, hi0, rfl⟩ := Option.map_eq_some'.mp h
      simpa using ih i0 hi0

theorem firstIdx_min (l : List String) (x : String) (i : Nat)
    (h : firstIdx l x = some i) : ∀ k, k < i → l[k]? ≠ some x := by
  induction l generalizing i with
  | nil => simp [firstIdx] at h
  | cons a t ih =>
    simp only [firstIdx] at h
    by_cases hax : a = x
    · rw [if_pos hax] at h
      obtain rfl : 0 = i := Option.some.inj h
      intro k hk
      omega
    · rw [if_neg hax] at h
      obtain ⟨i0, hi0, rfl⟩ := Option.map_eq_some'.mp h
      intro k hk
      match k with
      | 0 => simpa using hax
      | k0 + 1 =>
        have ht := ih i0 hi0 k0 (by omega)
        simpa using ht

theorem embAccum_go (batches : List (List (String × List Rat)))
    (a b : List String) (c : List (List Rat)) :
    batches.foldl
      (fun acc batch =>
        (acc.1 ++ batch.map Prod.fst,
         acc.2.1 ++ batch.map Prod.fst,
         acc.2.2 ++ batch.map Prod.snd)) (a, b, c) =
      (a ++ batches.flatten.map Prod.fst,
       b ++ batches.flatten.map Prod.fst,
       c ++ batches.flatten.map Prod.snd) := by
  induction batches generalizing a b c with
  | nil => simp
  | cons hd tl ih =>
    simp [List.foldl_cons, ih, List.map_append, List.append_assoc]

theorem embAccum_eq (batches : List (List (String × List Rat))) :
    embAccum batches =
      (batches.flatten.map Prod.fst,
       batches.flatten.map Prod.fst,
       batches.flatten.map Prod.snd) := by
  simpa [embAccum] using embAccum_go batches [] [] []

theorem trainAccum_go (batches : List (List (String × String × List Rat)))
    (a b : List String) (c : List (List Rat)) :
    batches.foldl
      (fun acc batch =>
        (acc.1 ++ batch.map Prod.fst,
         acc.2.1 ++ batch.map (fun u => u.2.1),
         acc.2.2 ++ batch.map (fun u => u.2.2))) (a, b, c) =
      (a ++ batches.flatten.map Prod.fst,
       b ++ batches.flatten.map (fun u => u.2.1),
       c ++ batches.flatten.map (fun u => u.2.2)) := by
  induction batches generalizing a b c with
  | nil => simp
  | cons hd tl ih =>
    simp [List.foldl_cons, ih, List.map_append, List.append_assoc]

theorem trainAccum_eq (batches : List (List (String × String × List Rat))) :
    trainAccum batches =
      (batches.flatten.map Prod.fst,
       batches.flatten.map (fun u => u.2.1),
       batches.flatten.map (fun u => u.2.2)) := by
  simpa [trainAccum] using trainAccum_go batches [] [] []

theorem buildEmbStatObj_eq (batches : List (List (String × List Rat))) :
    buildEmbStatObj batches =
      { modelset := batches.flatten.map Prod.fst
        segset := batches.flatten.map Prod.fst
        start := List.replicate batches.flatten.length none
        stop := List.replicate batches.flatten.length none
        stat0 := List.replicate batches.flatten.length [1]
        stat1 := batches.flatten.map Prod.snd } := by
  have hlen : (batches.flatten.map Prod.snd).length = batches.flatten.length :=
    List.length_map _ _
  simp only [buildEmbStatObj, embAccum_eq, hlen]

theorem buildTrainStatObj_eq (batches : List (List (String × String × List Rat))) :
    buildTrainStatObj batches =
      { modelset := batches.flatten.map Prod.fst
        segset := batches.flatten.map (fun u => u.2.1)
        start := List.replicate batches.flatten.length none
        stop := List.replicate batches.flatten.length none
        stat0 := List.replicate batches.flatten.length [1]
        stat1 := batches.flatten.map (fun u => u.2.2) } := by
  have hlen : (batches.flatten.map (fun u => u.2.2)).length = batches.flatten.length :=
    List.length_map _ _
  simp only [buildTrainStatObj, trainAccum_eq, hlen]

theorem collectScores_error_append (sm : Scores) (pre post : List String)
    (line : String) (e : EerErr)
    (hpre : ∀ l ∈ pre, ∃ v, processLine sm l = Except.ok v)
    (h : processLine sm line = .error e) :
    collectScores sm (pre ++ line :: post) = .error e := by
  induction pre with
  | nil => simp [collectScores, h]
  | cons p ps ih =>
    obtain ⟨⟨lab, s⟩, hv⟩ := hpre p (by simp)
    have hrec := ih (fun l hl => hpre l (by simp [hl]))
    simp [collectScores, hv, hrec]

example : normId "path/enr.wav\n".data = "path/enr" := by decide
example : normId "1".data = "1" := by decide
example : firstIdx ["a", "b", "a"] "a" = some 0 := by decide
example :
    processLine ⟨["a"], ["x"], [[5]]⟩ "1 a.wav x.wav\n" = .ok (1, 5) := by decide
example :
    processLine ⟨["a"], ["x"], [[5]]⟩ "1 b.wav x.wav\n" =
      .error .trialNotFound := by decide
example : EER_fn [5] [1] = .ok (0, 1) := by
  norm_num [EER_fn, List.insertionSort, List.orderedInsert, List.argmin,
    List.argAux, FARat, FRRat, absRat, List.foldl]
example :
    compute_EER ⟨["a", "b"], ["x", "y"], [[5, 99], [98, 1]]⟩
      ["1 a.wav x.wav\n", "0 b.wav y.wav\n"] = .ok 0 := by
  have hc :
      collectScores ⟨["a", "b"], ["x", "y"], [[5, 99], [98, 1]]⟩
        ["1 a.wav x.wav\n", "0 b.wav y.wav\n"] = .ok ([5], [1]) := by decide
  rw [compute_EER, hc]
  norm_num [EER_fn, List.insertionSort, List.orderedInsert, List.argmin,
    List.argAux, FARat, FRRat, absRat, List.foldl]

/-- C5: for every split (train, enroll, test) and for the trial index, the
cached artifact is used iff its file exists. When the cache is absent
(`none`), the artifact is recomputed and saved — absence is treated as
"recompute", never as an error; when the cache exists, the stored artifact is
returned and used as-is, whatever its content (no content validation). -/
theorem C5_cache_by_existence
    (eb : List (List (String × List Rat)))
    (tb : List (List (String × String × List Rat)))
    (models testsegs : List String) :
    emb_computation_loop eb none =
      (buildEmbStatObj eb, some (buildEmbStatObj eb)) ∧
    (∀ so : StatObject_SB, emb_computation_loop eb (some so) = (so, some so)) ∧
    train_embedding_step tb none =
      (buildTrainStatObj tb, some (buildTrainStatObj tb)) ∧
    (∀ so : StatObject_SB, train_embedding_step tb (some so) = (so, some so)) ∧
    prepare_ndx models testsegs none =
      (Ndx.mk models testsegs, some (Ndx.mk models testsegs)) ∧
    (∀ nd : Ndx, prepare_ndx models testsegs (some nd) = (nd, some nd)) := by
  exact ⟨rfl, fun so => rfl, rfl, fun so => rfl, rfl, fun nd => rfl⟩

/-- C6: the stat object built by the embedding computation loop has one record
per utterance fed in — `modelset`, `segset` and the first-order statistic
matrix `stat1` all have length equal to the number of utterances — and the
record at each position carries exactly the id-derived label and the vector
that were supplied (`mod = seg = ids`, embeddings concatenated in order): no
silent drops. -/
theorem C6_no_silent_drops (batches : List (List (String × List Rat))) :
    (buildEmbStatObj batches).modelset.length = batches.flatten.length ∧
    (buildEmbStatObj batches).segset.length = batches.flatten.length ∧
    (buildEmbStatObj batches).stat1.length = batches.flatten.length ∧
    ∀ k : Nat,
      (buildEmbStatObj batches).modelset[k]? =
        (batches.flatten[k]?).map Prod.fst ∧
      (buildEmbStatObj batches).segset[k]? =
        (batches.flatten[k]?).map Prod.fst ∧
      (buildEmbStatObj batches).stat1[k]? =
        (batches.flatten[k]?).map Prod.snd := by
  refine ⟨?_, ?_, ?_, fun k => ⟨?_, ?_, ?_⟩⟩ <;>
    simp only [buildEmbStatObj_eq, List.length_map, List.getElem?_map]

/-- C10: every stat object constructed by the pipeline — the training one
built in `__main__` as well as the enrol/test ones built by
`emb_computation_loop` — has `stat0` equal to `[[1.0]] * n` (each record's
zeroth-order statistic is the single value 1.0) and `start`/`stop` equal to
`[None] * n` (every record's start and stop are None). -/
theorem C10_stat0_one_start_stop_none
    (eb : List (List (String × List Rat)))
    (tb : List (List (String × String × List Rat))) :
    (buildEmbStatObj eb).stat0 = List.replicate eb.flatten.length [1] ∧
    (buildEmbStatObj eb).start = List.replicate eb.flatten.length none ∧
    (buildEmbStatObj eb).stop = List.replicate eb.flatten.length none ∧
    (buildTrainStatObj tb).stat0 = List.replicate tb.flatten.length [1] ∧
    (buildTrainStatObj tb).start = List.replicate tb.flatten.length none ∧
    (buildTrainStatObj tb).stop = List.replicate tb.flatten.length none := by
  simp [buildEmbStatObj_eq, buildTrainStatObj_eq]

/-- C8: a found trial's score is appended to the positive set iff its parsed
label equals 1, and (for the ground-truth format's labels 0 and 1) to the
negative set iff the label equals 0; in either case the other set is left
unchanged, so the score lands in exactly one of the two sets. -/
theorem C8_partition (sm : Scores) (line : String) (rest : List String)
    (lab : Int) (s : Rat) (pos neg : List Rat)
    (hline : processLine sm line = .ok (lab, s))
    (hrest : collectScores sm rest = .ok (pos, neg))
    (hlab : lab = 0 ∨ lab = 1) :
    (lab = 1 → collectScores sm (line :: rest) = .ok (s :: pos, neg)) ∧
    (lab = 0 → collectScores sm (line :: rest) = .ok (pos, s :: neg)) := by
  constructor
  · intro hl1
    subst hl1
    simp [collectScores, hline, hrest]
  · intro hl0
    subst hl0
    simp [collectScores, hline, hrest]

/-- Witness for C8 at a concrete match trial and a concrete non-match trial. -/
theorem C8_partition_witness :
    collectScores ⟨["a"], ["x"], [[5]]⟩ ["1 a.wav x.wav"] = .ok ([5], []) ∧
    collectScores ⟨["a"], ["x"], [[5]]⟩ ["0 a.wav x.wav"] = .ok ([], [5]) :=
  ⟨(C8_partition ⟨["a"], ["x"], [[5]]⟩ "1 a.wav x.wav" [] 1 5 [] []
      (by decide) rfl (Or.inr rfl)).1 rfl,
   (C8_partition ⟨["a"], ["x"], [[5]]⟩ "0 a.wav x.wav" [] 0 5 [] []
      (by decide) rfl (Or.inl rfl)).2 rfl⟩

/-- C9: a trial line whose label parses to an integer other than 0 or 1 is not
rejected — because every label different from 1 takes the `else` branch, the
trial's score is silently appended to the negative set. -/
theorem C9_nonbinary_label_negative (sm : Scores) (line : String)
    (rest : List String) (lab : Int) (s : Rat) (pos neg : List Rat)
    (hline : processLine sm line = .ok (lab, s))
    (hlab : lab ≠ 1)
    (hrest : collectScores sm rest = .ok (pos, neg)) :
    collectScores sm (line :: rest) = .ok (pos, s :: neg) := by
  simp [collectScores, hline, hrest, hlab]

/-- Witness for C9 at labels 2 and -1: both trials land in the negative set. -/
theorem C9_witness :
    collectScores ⟨["a"], ["x"], [[5]]⟩ ["2 a.wav x.wav"] = .ok ([], [5]) ∧
    collectScores ⟨["a"], ["x"], [[5]]⟩ ["-1 a.wav x.wav"] = .ok ([], [5]) :=
  ⟨C9_nonbinary_label_negative ⟨["a"], ["x"], [[5]]⟩ "2 a.wav x.wav" [] 2 5 [] []
      (by decide) (by decide) rfl,
   C9_nonbinary_label_negative ⟨["a"], ["x"], [[5]]⟩ "-1 a.wav x.wav" [] (-1) 5 [] []
      (by decide) (by decide) rfl⟩

/-- C2: a ground-truth trial whose normalized enrolment id is absent from the
score matrix's modelset, or whose normalized test id is absent from its
segset, makes the whole EER computation fail with the trial-not-found error
(the IndexError raised by `numpy.where(...)[0][0]`, which the spec names
TrialNotFoundError): even when every earlier line processes fine, the result
is the error — the offending trial is never silently skipped. -/
theorem C2_absent_id_fails (sm : Scores) (pre post : List String)
    (line : String) (t0 t1 t2 : List Char) (lab : Int)
    (h0 : (pySplit (· = ' ') line.data)[0]? = some t0)
    (hlab : pyInt (normId t0).data = some lab)
    (h1 : (pySplit (· = ' ') line.data)[1]? = some t1)
    (h2 : (pySplit (· = ' ') line.data)[2]? = some t2)
    (habs : normId t1 ∉ sm.modelset ∨ normId t2 ∉ sm.segset)
    (hpre : ∀ l ∈ pre, ∃ v, processLine sm l = Except.ok v) :
    compute_EER sm (pre ++ line :: post) = .error .trialNotFound := by
  have hline : processLine sm line = Except.error EerErr.trialNotFound := by
    simp only [processLine, h0, hlab, h1, h2]
    rcases habs with ha | hb
    · simp [(firstIdx_eq_none_iff _ _).mpr ha]
    · cases hm : firstIdx sm.modelset (normId t1) with
      | none => rfl
      | some i => simp [(firstIdx_eq_none_iff _ _).mpr hb]
  have hcoll :=
    collectScores_error_append sm pre post line EerErr.trialNotFound hpre hline
  simp [compute_EER, hcoll]

/-- Witness for C2: a trial whose enrolment ref `b.wav` normalizes to `b`,
absent from the modelset `["a"]`. -/
theorem C2_witness :
    compute_EER ⟨["a"], ["x"], [[5]]⟩ ["1 b.wav x.wav"] =
      .error .trialNotFound :=
  C2_absent_id_fails ⟨["a"], ["x"], [[5]]⟩ [] [] "1 b.wav x.wav"
    "1".data "b.wav".data "x.wav".data 1 (by decide) (by decide) (by decide)
    (by decide) (Or.inl (by decide)) (by simp)

/-- C4: the EER computation selects the score at the first index of the score
matrix's modelset matching the enrolment id and the first index of its segset
matching the test id — the id occurs at the selected position, no earlier
position holds it, and the score handed on is exactly the matrix entry at that
pair of first indices, so any later duplicate occurrence is ignored. -/
theorem C4_first_occurrence (sm : Scores) (line : String)
    (t1 t2 : List Char) (i j : Nat) (lab : Int) (s : Rat)
    (h1 : (pySplit (· = ' ') line.data)[1]? = some t1)
    (h2 : (pySplit (· = ' ') line.data)[2]? = some t2)
    (hi : firstIdx sm.modelset (normId t1) = some i)
    (hj : firstIdx sm.segset (normId t2) = some j)
    (hok : processLine sm line = .ok (lab, s)) :
    sm.modelset[i]? = some (normId t1) ∧
    (∀ k, k < i → sm.modelset[k]? ≠ some (normId t1)) ∧
    sm.segset[j]? = some (normId t2) ∧
    (∀ k, k < j → sm.segset[k]? ≠ some (normId t2)) ∧
    (sm.scoremat[i]?).bind (fun row => row[j]?) = some s := by
  refine ⟨firstIdx_getElem _ _ _ hi, firstIdx_min _ _ _ hi,
          firstIdx_getElem _ _ _ hj, firstIdx_min _ _ _ hj, ?_⟩
  cases h0 : (pySplit (· = ' ') line.data)[0]? with
  | none =>
    simp only [processLine, h0] at hok
    simp at hok
  | some t0 =>
    cases hl : pyInt (normId t0).data with
    | none =>
      simp only [processLine, h0, hl] at hok
      simp at hok
    | some lab0 =>
      simp only [processLine, h0, hl, h1, h2, hi, hj] at hok
      cases hsc : (sm.scoremat[i]?).bind (fun row => row[j]?) with
      | none =>
        rw [hsc] at hok
        simp at hok
      | some s0 =>
        rw [hsc] at hok
        simp only [Except.ok.injEq, Prod.mk.injEq] at hok
        rw [hok.2]

/-- Witness for C4 on a modelset with a duplicated id: the first occurrence
(index 0, score 5) is the one selected, not the later one. -/
theorem C4_witness :
    (⟨["a", "a"], ["x"], [[5], [7]]⟩ : Scores).modelset[0]? =
      some (normId "a.wav".data) ∧
    ((⟨["a", "a"], ["x"], [[5], [7]]⟩ : Scores).scoremat[0]?).bind
      (fun row => row[0]?) = some 5 := by
  have h := C4_first_occurrence ⟨["a", "a"], ["x"], [[5], [7]]⟩
      "1 a.wav x.wav" "a.wav".data "x.wav".data 0 0 1 5
      (by decide) (by decide) (by decide) (by decide) (by decide)
  exact ⟨h.1, h.2.2.2.2⟩

/-- The ID-normalization rule as the spec's claim states it: map a file ref to
a bare ID by stripping both the path separators (keeping only the last
`/`-separated component) and the file extension. Written for comparison with
the source's `normId`. -/
def specBareId (tok : List Char) : String :=
  String.mk
    (pyStrip
      ((pySplit (· = '.')
          ((pySplit (· = '/') (pyRstrip tok)).getLastD [])).headD []))

/-- Counterexample to C1: on the file ref `path/enr.wav` the code keeps the
path separator (producing the id `path/enr`), while the claimed rule would
also strip the path (bare id `enr`); with a score matrix whose modelset holds
exactly the bare id `enr`, the claimed rule would find the trial but the code
fails its lookup. -/
theorem C1_counterexample :
    normId "path/enr.wav".data ≠ specBareId "path/enr.wav".data ∧
    normId "path/enr.wav".data = "path/enr" ∧
    specBareId "path/enr.wav".data = "enr" ∧
    processLine ⟨["enr"], ["tst"], [[7]]⟩ "1 path/enr.wav tst.wav" =
      .error .trialNotFound := by decide

/-- C1 amended: for every trial line, the enrolment and test file refs are
mapped to ids by trimming whitespace and stripping the file extension only —
the part of the token before its first dot (`tok.rstrip().split(".")[0]
.strip()`, i.e. `normId`); path separators are preserved in the id — and it is
these extension-stripped ids that are looked up against the score matrix's
modelset and segset. -/
theorem C1_extension_only_normalization (sm : Scores) (line : String)
    (t0 t1 t2 : List Char) (lab : Int)
    (h0 : (pySplit (· = ' ') line.data)[0]? = some t0)
    (hlab : pyInt (normId t0).data = some lab)
    (h1 : (pySplit (· = ' ') line.data)[1]? = some t1)
    (h2 : (pySplit (· = ' ') line.data)[2]? = some t2) :
    processLine sm line =
      match firstIdx sm.modelset (normId t1),
            firstIdx sm.segset (normId t2) with
      | some i, some j =>
        (match (sm.scoremat[i]?).bind (fun row => row[j]?) with
         | none => .error .badMatrix
         | some s => .ok (lab, s))
      | _, _ => .error .trialNotFound := by
  simp only [processLine, h0, hlab, h1, h2]
  cases hm : firstIdx sm.modelset (normId t1) <;>
    cases hs : firstIdx sm.segset (normId t2) <;> simp [hm, hs]

/-- Witness for C1's amended theorem: the looked-up enrolment id for ref
`path/enr.wav` is `path/enr` (extension stripped, path kept), which the
modelset `["path/enr"]` matches at index 0, so the trial is found. -/
theorem C1_amended_witness :
    processLine ⟨["path/enr"], ["tst"], [[7]]⟩ "1 path/enr.wav tst.wav" =
      (match firstIdx ["path/enr"] (normId "path/enr.wav".data),
             firstIdx ["tst"] (normId "tst.wav".data) with
       | some i, some j =>
         (match ((⟨["path/enr"], ["tst"], [[7]]⟩ : Scores).scoremat[i]?).bind
             (fun row => row[j]?) with
          | none => Except.error EerErr.badMatrix
          | some s => Except.ok ((1 : Int), s))
       | _, _ => Except.error EerErr.trialNotFound) :=
  C1_extension_only_normalization ⟨["path/enr"], ["tst"], [[7]]⟩
    "1 path/enr.wav tst.wav" "1".data "path/enr.wav".data "tst.wav".data 1
    (by decide) (by decide) (by decide) (by decide)

/-- Counterexample to C3: the claim says the EER evaluation reports the pair
`(eer, threshold)` to its caller. Two score matrices whose positive/negative
sets yield the same EER (0) but different thresholds (1 versus 3) make
`compute_EER` return identical results, so the threshold component computed by
the EER routine is not reported to the caller. -/
theorem C3_counterexample :
    compute_EER ⟨["a", "b"], ["x", "y"], [[5, 99], [98, 1]]⟩
        ["1 a.wav x.wav", "0 b.wav y.wav"] =
      compute_EER ⟨["a", "b"], ["x", "y"], [[7, 99], [98, 3]]⟩
        ["1 a.wav x.wav", "0 b.wav y.wav"] ∧
    EER_fn [5] [1] = .ok (0, 1) ∧
    EER_fn [7] [3] = .ok (0, 3) := by
  have hA :
      collectScores ⟨["a", "b"], ["x", "y"], [[5, 99], [98, 1]]⟩
        ["1 a.wav x.wav", "0 b.wav y.wav"] = .ok ([5], [1]) := by decide
  have hB :
      collectScores ⟨["a", "b"], ["x", "y"], [[7, 99], [98, 3]]⟩
        ["1 a.wav x.wav", "0 b.wav y.wav"] = .ok ([7], [3]) := by decide
  have e1 : EER_fn [5] [1] = .ok (0, 1) := by
    norm_num [EER_fn, List.insertionSort, List.orderedInsert, List.argmin,
      List.argAux, FARat, FRRat, absRat, List.foldl]
  have e2 : EER_fn [7] [3] = .ok (0, 3) := by
    norm_num [EER_fn, List.insertionSort, List.orderedInsert, List.argmin,
      List.argAux, FARat, FRRat, absRat, List.foldl]
  refine ⟨?_, e1, e2⟩
  simp only [compute_EER, hA, hB, e1, e2]

/-- C3 amended: given a score matrix and ground-truth trials whose collected
positive and negative sets let the EER routine succeed (which requires at
least one match and one non-match trial), `compute_EER` reports only the `eer`
component of the `(eer, threshold)` pair to its caller; the threshold is
discarded. -/
theorem C3_returns_eer_only (sm : Scores) (gtLines : List String)
    (pos neg : List Rat) (eer th : Rat)
    (hc : collectScores sm gtLines = .ok (pos, neg))
    (he : EER_fn pos neg = .ok (eer, th)) :
    compute_EER sm gtLines = .ok eer := by
  simp only [compute_EER, hc, he]

/-- Witness for C3's amended theorem at a concrete one-match one-non-match
trial file. -/
theorem C3_returns_eer_only_witness :
    compute_EER ⟨["a", "b"], ["x", "y"], [[5, 99], [98, 1]]⟩
      ["1 a.wav x.wav", "0 b.wav y.wav"] = .ok 0 :=
  C3_returns_eer_only ⟨["a", "b"], ["x", "y"], [[5, 99], [98, 1]]⟩
    ["1 a.wav x.wav", "0 b.wav y.wav"] [5] [1] 0 1 (by decide)
    (by norm_num [EER_fn, List.insertionSort, List.orderedInsert, List.argmin,
      List.argAux, FARat, FRRat, absRat, List.foldl])

theorem lookupVec_mk (l : List (String × List Rat)) (id : String) :
    lookupVec
      { modelset := l.map Prod.fst
        segset := l.map Prod.fst
        start := List.replicate l.length none
        stop := List.replicate l.length none
        stat0 := List.replicate l.length [1]
        stat1 := l.map Prod.snd } id =
      l.find? (fun p => p.1 == id) := by
  induction l with
  | nil => rfl
  | cons a t ih =>
    simp only [lookupVec] at ih ⊢
    simp only [List.map_cons, firstIdx]
    by_cases hai : a.1 = id
    · subst hai
      rw [List.find?_cons_of_pos _ (by simp), if_pos rfl]
      simp
    · rw [List.find?_cons_of_neg _ (by simpa using hai), if_neg hai]
      cases hf : firstIdx (List.map Prod.fst t) id with
      | none =>
        rw [hf] at ih
        simpa using ih
      | some k =>
        rw [hf] at ih
        simpa using ih

theorem lookupVec_build (batches : List (List (String × List Rat)))
    (id : String) :
    lookupVec (buildEmbStatObj batches) id =
      batches.flatten.find? (fun p => p.1 == id) := by
  have h := lookupVec_mk batches.flatten id
  rw [buildEmbStatObj_eq]
  simpa [List.length_map] using h

theorem find?_key_perm (l1 l2 : List (String × List Rat)) (id : String)
    (hperm : l1.Perm l2) (hnd : (l1.map Prod.fst).Nodup) :
    l1.find? (fun p => p.1 == id) = l2.find? (fun p => p.1 == id) := by
  cases h1 : l1.find? (fun p => p.1 == id) with
  | none =>
    have h2 : l2.find? (fun p => p.1 == id) = none := by
      rw [List.find?_eq_none] at h1 ⊢
      intro x hx
      exact h1 x (hperm.mem_iff.mpr hx)
    rw [h2]
  | some p =>
    have hpmem : p ∈ l1 := List.mem_of_find?_eq_some h1
    have hpkey : p.1 = id := by simpa using List.find?_some h1
    have hpmem2 : p ∈ l2 := hperm.subset hpmem
    cases h2 : l2.find? (fun q => q.1 == id) with
    | none =>
      rw [List.find?_eq_none] at h2
      exact absurd hpkey (by simpa using h2 p hpmem2)
    | some q =>
      have hqmem : q ∈ l2 := List.mem_of_find?_eq_some h2
      have hqkey : q.1 = id := by simpa using List.find?_some h2
      have hq1 : q ∈ l1 := hperm.symm.subset hqmem
      have hpq : p = q := by
        apply List.inj_on_of_nodup_map hnd hpmem hq1
        rw [hpkey, hqkey]
      rw [hpq]

/-- C7: when two batch arrival orders deliver the same multiset of
`(id, vector)` pairs (the flattened batch streams are permutations of each
other) and the utterance ids are distinct, the stat objects built by the
embedding computation loop assign each id the same label and vector: record
lookup by id is invariant under permutation of arrival order. -/
theorem C7_order_independent (b1 b2 : List (List (String × List Rat)))
    (hperm : b1.flatten.Perm b2.flatten)
    (hnd : (b1.flatten.map Prod.fst).Nodup) (id : String) :
    lookupVec (buildEmbStatObj b1) id = lookupVec (buildEmbStatObj b2) id := by
  rw [lookupVec_build, lookupVec_build]
  exact find?_key_perm _ _ id hperm hnd

/-- Witness for C7: one batch of two utterances versus two singleton batches
arriving in the opposite order give the same record for id `a`. -/
theorem C7_witness :
    lookupVec (buildEmbStatObj [[("a", [1]), ("b", [2])]]) "a" =
      lookupVec (buildEmbStatObj [[("b", [2])], [("a", [1])]]) "a" :=
  C7_order_independent [[("a", [1]), ("b", [2])]] [[("b", [2])], [("a", [1])]]
    (by decide) (by decide) "a"
